import Mathlib

/-!
Verification development for the clinical intake/discharge form application
(source: src/index.tsx).  The definitions below are a shallow embedding of
the record store, the role-based access control, the record-lock logic, the
form document mapper, the discharge workflow and the PDF table/merge steps,
translated from the source file.  Machine integers (epoch milliseconds) are
modelled as `Int`; JavaScript truthiness of a number is `≠ 0`, of a string
is `≠ ""`.
-/

namespace ClinicaDelSol

/-- Association-list lookup by string key, modelling JavaScript property
access `obj[key]` on the plain data objects the application stores. -/
def alookup {α : Type} (k : String) : List (String × α) → Option α
  | [] => none
  | (k', v) :: rest => if k' = k then some v else alookup k rest

/-- A scalar or table value inside a stored TabDocument.  `collectAndSaveAllData`
(src/index.tsx 988-1022) stores checkbox fields as booleans, every other field
as a string, and each `table[data-table-name]` as an array of row objects whose
cells are the strings read from the row inputs. -/
inductive DocVal where
  | vStr : String → DocVal
  | vBool : Bool → DocVal
  | vRows : List (List (String × String)) → DocVal
deriving DecidableEq, Repr

/-- One tab's stored document: field key ↦ value, as built by the collection
loop of `collectAndSaveAllData`. -/
abbrev TabDoc := List (String × DocVal)

/-- JavaScript truthiness of a stored value (`if (tableData ...)`,
`if (tabData.dni)`): empty string and `false` are falsy, arrays are truthy. -/
def truthyDocVal : DocVal → Bool
  | .vStr s => decide (s ≠ "")
  | .vBool b => b
  | .vRows _ => true

/-- JavaScript string coercion applied by `element.value = v`
(`populateForm`, src/index.tsx 719): strings stay, booleans print as
`true`/`false`, an array of row objects prints as `[object Object]` entries
joined by commas. -/
def docValToString : DocVal → String
  | .vStr s => s
  | .vBool b => if b then "true" else "false"
  | .vRows rs => String.intercalate "," (rs.map (fun _ => "[object Object]"))

/-- Kind of a bound form element: `<input type="checkbox">` versus every
other value-bearing control (text, date, number, select, textarea — all of
which read and write `.value` as a string). -/
inductive FieldKind where
  | checkbox : FieldKind
  | text : FieldKind
deriving DecidableEq, Repr

/-- A bound scalar field of one tab's form: its local key (element id with
the tab prefix stripped) and its kind. -/
structure Field where
  key : String
  kind : FieldKind
deriving DecidableEq, Repr

/-- A dynamic-row table of one tab's form: its `data-table-name` and the
`name` attributes of the inputs of one synthesized row, in cell order
(src/index.tsx 821-877, the add-row templates). -/
structure Table where
  name : String
  cols : List String
deriving DecidableEq, Repr

/-- The bound-field schema of one tab's form: scalar fields in DOM element
order, then its tables in DOM order. -/
structure Schema where
  fields : List Field
  tables : List Table

/-- Current DOM value of one bound scalar control: `.checked` for a
checkbox, `.value` for everything else. -/
inductive ScalarVal where
  | sStr : String → ScalarVal
  | sBool : Bool → ScalarVal
deriving DecidableEq, Repr

/-- The DOM state of one tab's form relative to its schema: one scalar value
per bound field (in schema order) and, per table, the list of current rows,
each row being the cell values in column order. -/
structure FormSt where
  scalars : List ScalarVal
  rows : List (List (List String))
deriving DecidableEq, Repr

/-- Collection of one scalar control (src/index.tsx 996-1006): a checkbox
contributes its checked state as a boolean, every other control its string
value. -/
def collectScalar : ScalarVal → DocVal
  | .sStr s => .vStr s
  | .sBool b => .vBool b

/-- Collection of one table row (src/index.tsx 1011-1017): every named input
of the row contributes `name ↦ value`, in cell order. -/
def collectRow (cols : List String) (r : List String) : List (String × String) :=
  cols.zip r

/-- The scalar entries of a collected TabDocument, in element order. -/
def scalarEntries (fields : List Field) (svals : List ScalarVal) : TabDoc :=
  (fields.zip svals).map (fun fv => (fv.1.key, collectScalar fv.2))

/-- The table entries of a collected TabDocument, one per
`table[data-table-name]`, in DOM order. -/
def tableEntries (tables : List Table) (trows : List (List (List String))) : TabDoc :=
  (tables.zip trows).map (fun tv => (tv.1.name, DocVal.vRows (tv.2.map (collectRow tv.1.cols))))

/-- The per-form collection loop of `collectAndSaveAllData`
(src/index.tsx 988-1022): read every bound scalar field, then append one
row-array entry per table. -/
def collectForm (sch : Schema) (st : FormSt) : TabDoc :=
  scalarEntries sch.fields st.scalars ++ tableEntries sch.tables st.rows

/-- Population of one scalar control (src/index.tsx 713-722): if the
document has a value for the field's key, a checkbox takes its Boolean
coercion (`element.checked = v`) and any other control its string coercion
(`element.value = v`); keys absent from the document leave the control
untouched. -/
def setScalar (kind : FieldKind) (old : ScalarVal) (dv : Option DocVal) : ScalarVal :=
  match dv with
  | none => old
  | some v =>
    match kind with
    | .checkbox => .sBool (truthyDocVal v)
    | .text => .sStr (docValToString v)

/-- Scalar part of `populateForm`: every bound field is updated from the
document (extra document keys with no bound field are ignored because only
bound fields are traversed). -/
def populateScalars (fields : List Field) (svals : List ScalarVal) (d : TabDoc) : List ScalarVal :=
  (fields.zip svals).map (fun fv => setScalar fv.1.kind fv.2 (alookup fv.1.key d))

/-- Materialization of one row by `populateForm` (src/index.tsx 734-750):
a fresh template row is synthesized via the add-row button, then every named
input that has an entry in the row record is filled; cells without an entry
keep the empty default of a fresh input. -/
def materializeRow (cols : List String) (r : List (String × String)) : List String :=
  cols.map (fun c => (alookup c r).getD "")

/-- Table part of `populateForm` (src/index.tsx 724-753): a table whose name
maps to a row array (`if (tableData && tableBody)`) is cleared and rebuilt
row by row; a table whose name is absent from the document (or maps to a
falsy value) keeps its current rows.  A truthy non-array value would make
the source throw inside `forEach`; documents produced by collection never
contain one, and the claims below range over collected documents only. -/
def populateTables (tables : List Table) (trows : List (List (List String)))
    (d : TabDoc) : List (List (List String)) :=
  (tables.zip trows).map (fun tv =>
    match alookup tv.1.name d with
    | some (DocVal.vRows rs) => rs.map (materializeRow tv.1.cols)
    | _ => tv.2)

/-- `populateForm` (src/index.tsx 710-754): write every matching scalar key
into its bound control, then rebuild every table that the document carries. -/
def populateForm (sch : Schema) (st : FormSt) (d : TabDoc) : FormSt :=
  { scalars := populateScalars sch.fields st.scalars d
    rows := populateTables sch.tables st.rows d }

/-- One field's stored DOM value has the shape its kind produces: a checkbox
holds a boolean, every other control a string. -/
def kindOk : FieldKind → ScalarVal → Bool
  | .checkbox, .sBool _ => true
  | .text, .sStr _ => true
  | _, _ => false

/-- Every bound field of the form has exactly one DOM value of the matching
shape. -/
def kindsOk : List Field → List ScalarVal → Bool
  | [], [] => true
  | f :: fs, v :: vs => kindOk f.kind v && kindsOk fs vs
  | _, _ => false

/-- Every row of a table's DOM state has one cell per column. -/
def tableRowsOk (t : Table) (rss : List (List String)) : Bool :=
  rss.all (fun r => r.length == t.cols.length)

/-- Every table of the form has exactly one row list of matching width. -/
def tablesOk : List Table → List (List (List String)) → Bool
  | [], [] => true
  | t :: ts, rs :: rss => tableRowsOk t rs && tablesOk ts rss
  | _, _ => false

/-- Well-formed schema: element ids are unique in the DOM, so field keys and
table names never collide, and the named inputs of one row template are
pairwise distinct. -/
def wfSchema (sch : Schema) : Prop :=
  ((sch.fields.map Field.key) ++ (sch.tables.map Table.name)).Nodup ∧
    ∀ t ∈ sch.tables, t.cols.Nodup

/-- Well-formed DOM state for a schema. -/
def wfState (sch : Schema) (st : FormSt) : Prop :=
  kindsOk sch.fields st.scalars = true ∧ tablesOk sch.tables st.rows = true

/-- User profile as stored in the `profiles` table (src/index.tsx 34-42);
only the fields the modelled logic reads are kept. -/
structure UserProfile where
  nombre : String
  apellido : String
  especialidad : String
  firma : Option String
deriving DecidableEq, Repr

/-- The static role → editable-section-tags table of `applyRoleBasedAccess`
(src/index.tsx 269-276), including its `|| []` fallback for roles absent
from the table. -/
def rolePermissions (especialidad : String) : List String :=
  if especialidad = "Administrativo" then ["administrativo"]
  else if especialidad = "Enfermero" then ["enfermero"]
  else if especialidad = "Anestesista" then ["anestesista"]
  else if especialidad = "Médico" then ["medico"]
  else []

/-- One editable control of the form DOM: the `data-role` tag of its
enclosing section, if any, and its current `disabled` flag. -/
structure Control where
  sectionTag : Option String
  disabled : Bool
deriving DecidableEq, Repr

/-- `applyRoleBasedAccess` (src/index.tsx 254-287): a missing user changes
nothing; `Administrador` enables every control; any other role first
disables every control, then walks its permission list and re-enables the
controls inside each section carrying that `data-role` tag. -/
def applyRoleBasedAccess (user : Option UserProfile) (ctrls : List Control) : List Control :=
  match user with
  | none => ctrls
  | some u =>
    if u.especialidad = "Administrador" then
      ctrls.map (fun c => { c with disabled := false })
    else
      (rolePermissions u.especialidad).foldl
        (fun cs role =>
          cs.map (fun c => if c.sectionTag = some role then { c with disabled := false } else c))
        (ctrls.map (fun c => { c with disabled := true }))

/-- Modelled from the spec (section 4.1 contract): `isEditable(role,
sectionTag)` — `Administrador` is a wildcard, otherwise true iff the tag is
in the role's permission list (empty for unknown roles).  The source has no
such named function; the theorems below relate this contract to
`applyRoleBasedAccess`. -/
def isEditable (role sectionTag : String) : Bool :=
  if role = "Administrador" then true else (rolePermissions role).contains sectionTag

/-- The lock-relevant UI state: the form controls, the lock banner (carrying
the displayed timestamp when shown) and the shared generate/import/export
buttons. -/
structure FormUI where
  controls : List Control
  bannerTs : Option Int
  auxButtonsDisabled : Bool
deriving DecidableEq, Repr

/-- `lockForm` (src/index.tsx 304-324): show the banner with the discharge
timestamp, disable every element of every form, and disable the
generate/import/export buttons. -/
def lockForm (timestamp : Int) (ui : FormUI) : FormUI :=
  { controls := ui.controls.map (fun c => { c with disabled := true })
    bannerTs := some timestamp
    auxButtonsDisabled := true }

/-- `unlockForm` (src/index.tsx 290-302): hide the banner, enable the
generate/import/export buttons, and reapply the role policy for the current
user. -/
def unlockForm (user : Option UserProfile) (ui : FormUI) : FormUI :=
  { controls := applyRoleBasedAccess user ui.controls
    bannerTs := none
    auxButtonsDisabled := false }

/-- The tab click handler (src/index.tsx 686-707): after switching the
active tab it reapplies the role policy whenever a user is logged in — with
no check of the lock state. -/
def tabClick (user : Option UserProfile) (ui : FormUI) : FormUI :=
  match user with
  | none => ui
  | some u => { ui with controls := applyRoleBasedAccess (some u) ui.controls }

/-- The derived lock state computed by `loadPatientDataIntoForms`
(src/index.tsx 780-785): `if (patientData.dischargeTimestamp)` is a
JavaScript truthiness test (a stored 0 counts as absent), and the record
locks when `Date.now() - dischargeTimestamp` strictly exceeds
`24 * 60 * 60 * 1000` milliseconds. -/
def lockCheckLocked (ts : Option Int) (now : Int) : Bool :=
  match ts with
  | none => false
  | some t => if t = 0 then false else decide (now - t > 24 * 60 * 60 * 1000)

/-- A stored patient record (value of the `patient_records` row for one
DNI): one optional TabDocument per procedure tab plus the optional
`dischargeTimestamp` (epoch milliseconds). -/
structure PatientRecord where
  hemodinamia : Option TabDoc
  grupoEndoscopico : Option TabDoc
  cirugias : Option TabDoc
  cirugiaAnestesia : Option TabDoc
  dischargeTimestamp : Option Int
deriving DecidableEq, Repr

/-- The `|| {}` fallback of `collectAndSaveAllData` for a DNI with no stored
record. -/
def emptyRecord : PatientRecord :=
  { hemodinamia := none, grupoEndoscopico := none, cirugias := none
    cirugiaAnestesia := none, dischargeTimestamp := none }

/-- The patient record store, keyed by DNI (`patient_records` table with
upsert-by-dni semantics). -/
def Store : Type := String → Option PatientRecord

/-- `apiSavePatient` (src/index.tsx 102-111): upsert on conflict by DNI. -/
def upsert (s : Store) (dni : String) (r : PatientRecord) : Store :=
  fun k => if k = dni then some r else s k

/-- The stored discharge timestamp for a DNI, if any. -/
def tsAt (s : Store) (dni : String) : Option Int :=
  match s dni with
  | none => none
  | some r => r.dischargeTimestamp

/-- The collected TabDocuments of the four procedure forms, in the state the
DOM holds at save time. -/
structure FormsSt where
  hd : TabDoc
  ge : TabDoc
  cg : TabDoc
  ca : TabDoc
deriving DecidableEq, Repr

/-- The aggregation loop of `collectAndSaveAllData` (src/index.tsx 988-1022):
`patientData[tabId] = formData` runs for every one of the four procedure
forms, so all four tab keys are overwritten with the current form contents;
every other key of the fetched record (in particular `dischargeTimestamp`)
is left untouched. -/
def applyForms (p : PatientRecord) (f : FormsSt) : PatientRecord :=
  { p with hemodinamia := some f.hd, grupoEndoscopico := some f.ge
           cirugias := some f.cg, cirugiaAnestesia := some f.ca }

/-- `collectAndSaveAllData` (src/index.tsx 980-1026): abort with an error if
the active tab has no DNI; otherwise fetch the stored record (or `{}`),
overwrite the four tab keys from the forms, upsert, and return the saved
record. -/
def collectAndSaveAllData (store : Store) (dni : String) (forms : FormsSt) :
    Except String (Store × PatientRecord) :=
  if dni = "" then .error "No se puede guardar sin un DNI en la pestaña activa."
  else
    let patientData := applyForms ((store dni).getD emptyRecord) forms
    .ok (upsert store dni patientData, patientData)

/-- The record persisted by a save attempt, if it succeeded. -/
def savedRec (x : Except String (Store × PatientRecord)) : Option PatientRecord :=
  match x with
  | .ok (_, p) => some p
  | .error _ => none

/-- The store after a full-record save attempt (unchanged when the save
aborted on a missing DNI). -/
def storeAfterSave (store : Store) (dni : String) (forms : FormsSt) : Store :=
  match collectAndSaveAllData store dni forms with
  | .ok (s, _) => s
  | .error _ => store

/-- JavaScript truthiness of the stored timestamp, as tested by
`if (!patientData.dischargeTimestamp)` — absent and 0 are falsy. -/
def truthyTs : Option Int → Bool
  | none => false
  | some t => decide (t ≠ 0)

/-- `setDischargeTimestamp` (src/index.tsx 1136-1154): return silently
without a DNI; otherwise save all form data, then — only if the saved record
has no (truthy) `dischargeTimestamp` — stamp `Date.now()` and save again. -/
def setDischargeTimestamp (store : Store) (dni : String) (forms : FormsSt) (now : Int) : Store :=
  if dni = "" then store
  else
    match collectAndSaveAllData store dni forms with
    | .error _ => store
    | .ok (store₁, patientData) =>
      if truthyTs patientData.dischargeTimestamp then store₁
      else upsert store₁ dni { patientData with dischargeTimestamp := some now }

/-- The per-tab DNI probe of the import handler (src/index.tsx 1095-1106):
`tabData && tabData.dni` — the tab document must exist and its `dni` entry
must be a truthy (non-empty) string. -/
def tabDni (d : Option TabDoc) : Option String :=
  match d with
  | none => none
  | some doc =>
    match alookup "dni" doc with
    | some (DocVal.vStr s) => if s = "" then none else some s
    | _ => none

/-- The DNI search of the import handler, walking the four main tabs in
source order. -/
def findImportDni (p : PatientRecord) : Option String :=
  match tabDni p.hemodinamia with
  | some dni => some dni
  | none =>
    match tabDni p.grupoEndoscopico with
    | some dni => some dni
    | none =>
      match tabDni p.cirugias with
      | some dni => some dni
      | none => tabDni p.cirugiaAnestesia

/-- The `.clinic` import handler (src/index.tsx 1083-1122): parse the file,
`delete importedData.dischargeTimestamp`, locate a DNI among the four tab
documents, and — if one is found — save the stripped imported record
wholesale under that DNI (no merge with the stored record).  Without a DNI
the handler raises an error and nothing is saved. -/
def importClinicSave (store : Store) (imported : PatientRecord) : Store :=
  match findImportDni { imported with dischargeTimestamp := none } with
  | none => store
  | some dni => upsert store dni { imported with dischargeTimestamp := none }

/-- The four procedure tabs the generate button dispatches on
(src/index.tsx 1315, 1508, 1667, 1856). -/
inductive ProcType where
  | hemodinamia : ProcType
  | grupoEndoscopico : ProcType
  | cirugias : ProcType
  | cirugiaAnestesia : ProcType
deriving DecidableEq, Repr

/-- The observable stages of one generate-PDF action. -/
inductive Stage where
  | validate : Stage
  | persist : Stage
  | render : Stage
  | merge : Stage
  | deliver : Stage
  | stamp : Stage
deriving DecidableEq, Repr

/-- The role gate guarding the stamp call in every branch of the generate
handler (src/index.tsx 1504, 1663, 1852, 2211). -/
def isDoctorOrAdmin (especialidad : String) : Bool :=
  especialidad = "Médico" || especialidad = "Administrador"

/-- The generate-PDF click handler (src/index.tsx 1156-2223), reduced to its
stage structure and its effect on the record store: failed validation aborts
before any side effect; a missing user or a missing DNI aborts after
validation; otherwise the handler saves all data (PERSIST), renders the
pages (RENDER), on the cirugia-anestesia branch attempts the merge when a
scanned file was supplied (MERGE), delivers the file (DELIVER), and finally
calls `setDischargeTimestamp` (STAMP) — but only when the user's role is
Médico or Administrador. -/
def generateAction (proc : ProcType) (formValid : Bool) (user : Option UserProfile)
    (scannedSupplied : Bool) (store : Store) (dni : String) (forms : FormsSt)
    (now : Int) : List Stage × Store :=
  if formValid = false then ([], store)
  else
    match user with
    | none => ([Stage.validate], store)
    | some u =>
      match collectAndSaveAllData store dni forms with
      | .error _ => ([Stage.validate], store)
      | .ok (store₁, _) =>
        let stages := [Stage.validate, Stage.persist, Stage.render]
          ++ (if proc = ProcType.cirugiaAnestesia ∧ scannedSupplied = true
              then [Stage.merge] else [])
          ++ [Stage.deliver]
        if isDoctorOrAdmin u.especialidad then
          (stages ++ [Stage.stamp], setDischargeTimestamp store₁ dni forms now)
        else (stages, store₁)

/-- The fixed-capacity table render loop (src/index.tsx 1450-1461 practicas
with 22 rows, 1485-1496 enfermeria with 16 rows, 2062-2071 prescripciones
with 22 rows): for every `i < cap` a row rectangle is drawn, and the data
row at index `i` is rendered only when it exists.  Returns the number of
rectangles drawn and the data rows consumed, in order. -/
def renderFixedTable (cap : Nat) (rows : List (List String)) : Nat × List (List String) :=
  (List.range cap).foldl
    (fun acc i => (acc.1 + 1, acc.2 ++ (rows.get? i).toList)) (0, [])

/-- `insertPage(n, p)`: insert one page at zero-based index `n`. -/
def insertAt {α : Type} (n : Nat) (a : α) (l : List α) : List α :=
  l.take n ++ a :: l.drop n

/-- The merge loop of the cirugia-anestesia branch (src/index.tsx
2192-2194): the copied external pages are inserted one by one, page `i` at
index `6 + i`; `insertPagesFrom 6 ext base` is the whole `forEach`. -/
def insertPagesFrom {α : Type} (n : Nat) : List α → List α → List α
  | [], base => base
  | p :: ps, base => insertPagesFrom (n + 1) ps (insertAt n p base)

/-- The merge-and-deliver tail of the cirugia-anestesia branch
(src/index.tsx 2183-2209): no scanned file means no merge; a scanned file
that fails to load is caught, a warning is shown, and the base document is
delivered unchanged; a valid scanned document has all its pages inserted
starting at index 6.  The byte stream is saved and delivered in every case.
`scanned = none`: no file; `some none`: file supplied but not a valid PDF;
`some (some ext)`: file supplied with pages `ext`.  The Bool is the
user-facing merge warning. -/
def caMergeDeliver {α : Type} (base : List α) (scanned : Option (Option (List α))) :
    List α × Bool :=
  match scanned with
  | none => (base, false)
  | some none => (base, true)
  | some (some ext) => (insertPagesFrom 6 ext base, false)

/-- The pages of the cirugia-anestesia base document, in render order
(src/index.tsx 1867-2178): the anesthesia-protocol cover is the sixth page
(index 5), so external pages inserted at index 6 land immediately after
it. -/
inductive PageKind where
  | datosPaciente | ingreso | examenFisico | parteQuirurgico | parteQuirurgico2
  | protocoloAnestesico | evolucion | prescripciones | practicasMedicas
  | controlEnfermeria | report | altaMedica
deriving DecidableEq, Repr

/-- Page order of the cirugia-anestesia render, from the source's page
comments. -/
def caBasePages : List PageKind :=
  [.datosPaciente, .ingreso, .examenFisico, .parteQuirurgico, .parteQuirurgico2,
   .protocoloAnestesico, .evolucion, .prescripciones, .practicasMedicas,
   .controlEnfermeria, .report, .altaMedica]

/-!  Concrete inputs used by the closed counterexamples and witnesses. -/

/-- A logged-in administrator. -/
def adminUser : UserProfile :=
  { nombre := "Ana", apellido := "Perez", especialidad := "Administrador", firma := none }

/-- A logged-in nurse. -/
def enfUser : UserProfile :=
  { nombre := "Eva", apellido := "Luna", especialidad := "Enfermero", firma := none }

/-- A logged-in physician. -/
def docUser : UserProfile :=
  { nombre := "Juan", apellido := "Gomez", especialidad := "Médico", firma := none }

/-- A one-control form UI after `lockForm` ran on a record discharged more
than 24 hours ago. -/
def demoLockedUI : FormUI :=
  lockForm 1000
    { controls := [{ sectionTag := some "medico", disabled := false }]
      bannerTs := none, auxButtonsDisabled := false }

/-- The empty store. -/
def store0 : Store := fun _ => none

/-- Empty collected form documents. -/
def emptyForms : FormsSt := { hd := [], ge := [], cg := [], ca := [] }

/-- A store holding one record whose discharge timestamp is already set. -/
def storeWithTs : Store :=
  upsert store0 "30111222" { emptyRecord with dischargeTimestamp := some 1000 }

/-- An imported `.clinic` document for the same DNI, carrying its own
timestamp field (which the import strips). -/
def importedDoc : PatientRecord :=
  { emptyRecord with
      hemodinamia := some [("dni", DocVal.vStr "30111222")]
      dischargeTimestamp := some 5 }

/-- A store whose record for the demo DNI holds sibling-tab data that a full
save is claimed to preserve. -/
def storeSibling : Store :=
  upsert store0 "30111222" { emptyRecord with cirugias := some [("x", DocVal.vStr "1")] }

/-- A tiny two-field, one-table schema for the round-trip counterexample. -/
def cxSchema : Schema :=
  { fields := [{ key := "a", kind := .text }, { key := "b", kind := .text }]
    tables := [{ name := "t", cols := ["c"] }] }

/-- A DOM state for `cxSchema` holding a leftover value in field `b`. -/
def cxSt : FormSt := { scalars := [.sStr "", .sStr "z"], rows := [[]] }

/-- A TabDocument whose keys are a strict subset of `cxSchema`'s bound
fields. -/
def cxDoc : TabDoc := [("a", DocVal.vStr "x")]

/-- A one-field, one-table schema for the round-trip witness. -/
def wSchema : Schema :=
  { fields := [{ key := "apellido", kind := .text }]
    tables := [{ name := "practicas", cols := ["Practica Fecha"] }] }

/-- A blank DOM state for `wSchema`. -/
def wSt : FormSt := { scalars := [.sStr ""], rows := [[]] }

/-- A filled DOM state for `wSchema` whose collected document exercises the
round trip. -/
def wSt' : FormSt := { scalars := [.sStr "Gomez"], rows := [[["2024-01-01"]]] }

/-!  Helper lemmas. -/

theorem alookup_cons_ne {α : Type} (k k' : String) (v : α) (l : List (String × α))
    (h : k' ≠ k) : alookup k ((k', v) :: l) = alookup k l := by
  simp [alookup, h]

theorem alookup_append_of_not_mem {α : Type} (k : String) (xs ys : List (String × α))
    (h : ∀ p ∈ xs, p.1 ≠ k) : alookup k (xs ++ ys) = alookup k ys := by
  induction xs with
  | nil => rfl
  | cons p xs ih =>
    rw [List.cons_append, alookup_cons_ne k p.1 p.2 _ (h p (by simp))]
    exact ih (fun q hq => h q (by simp [hq]))

theorem renderFixedTable_succ (n : Nat) (rows : List (List String)) :
    renderFixedTable (n + 1) rows
      = ((renderFixedTable n rows).1 + 1, (renderFixedTable n rows).2 ++ (rows.get? n).toList) := by
  unfold renderFixedTable
  rw [List.range_succ, List.foldl_append]
  simp

theorem renderFixedTable_eq (cap : Nat) (rows : List (List String)) :
    renderFixedTable cap rows = (cap, rows.take cap) := by
  induction cap with
  | zero => rfl
  | succ n ih => rw [renderFixedTable_succ, ih]; simp [List.take_succ, List.get?_eq_getElem?]

theorem lockCheckLocked_iff (ts : Option Int) (now : Int) :
    lockCheckLocked ts now = true
      ↔ ∃ t, ts = some t ∧ t ≠ 0 ∧ now - t > 24 * 60 * 60 * 1000 := by
  cases ts with
  | none => simp [lockCheckLocked]
  | some t =>
    by_cases h : t = 0
    · subst h; simp [lockCheckLocked]
    · simp [lockCheckLocked, h]

theorem lockCheckLocked_mono (ts : Option Int) (now now' : Int)
    (hle : now ≤ now') (h : lockCheckLocked ts now = true) :
    lockCheckLocked ts now' = true := by
  cases ts with
  | none => simp [lockCheckLocked] at h
  | some t =>
    by_cases h0 : t = 0
    · subst h0; simp [lockCheckLocked] at h
    · simp [lockCheckLocked, h0] at h ⊢; omega

/-!  Claim theorems. -/

/-- Claim C1 (code_bug evidence): after `lockForm` has disabled every
control of a locked record, a single tab click by a logged-in
`Administrador` re-enables every form control via `applyRoleBasedAccess`,
while the lock banner still shows the record as closed — the lock does not
survive the tab switch, contradicting the terminal-lock design. -/
theorem c1_lock_reenabled_by_tab_switch :
    (demoLockedUI.controls.all (fun c => c.disabled)) = true
    ∧ ((tabClick (some adminUser) demoLockedUI).controls.all (fun c => c.disabled)) = false
    ∧ demoLockedUI.bannerTs = some 1000 := by decide

/-- Claim C5 (counterexample): a record whose `dischargeTimestamp` is
present with value 0 and lies more than 24 hours in the past is NOT locked,
because `if (patientData.dischargeTimestamp)` is a truthiness test —
refuting "locked exactly when ts is present and now − ts > 24h". -/
theorem c5_counterexample :
    lockCheckLocked (some 0) 200000000 = false
    ∧ ((200000000 : Int) - 0 > 24 * 60 * 60 * 1000) := by decide

/-- Claim C5 (amended): the derived lock state is locked exactly when the
stored `dischargeTimestamp` is present with a nonzero value and
`now − ts` strictly exceeds 24 hours; and for a fixed timestamp the lock is
monotone in `now` (once locked, locked at every later instant). -/
theorem c5_lock_state_amended :
    (∀ (ts : Option Int) (now : Int),
        lockCheckLocked ts now = true
          ↔ ∃ t, ts = some t ∧ t ≠ 0 ∧ now - t > 24 * 60 * 60 * 1000)
    ∧ (∀ (ts : Option Int) (now now' : Int), now ≤ now' →
        lockCheckLocked ts now = true → lockCheckLocked ts now' = true) :=
  ⟨lockCheckLocked_iff, fun ts now now' => lockCheckLocked_mono ts now now'⟩

/-- Claim C5 witness: monotonicity applied at a concrete locked instant. -/
theorem c5_lock_state_amended_witness : lockCheckLocked (some 1) 86400003 = true :=
  c5_lock_state_amended.2 (some 1) 86400002 86400003 (by decide) (by decide)

/-- Claim C8: the fixed-capacity table renders (22 rows for practicas and
prescripciones pages, 16 for enfermeria) always draw exactly `cap` row
rectangles, consume exactly the first `min cap length` data rows in stored
order, and silently drop the rest — totally, with no error. -/
theorem c8_fixed_capacity_truncation :
    ∀ (practicasRows enfermeriaRows prescripcionesRows : List (List String)),
      renderFixedTable 22 practicasRows = (22, practicasRows.take 22)
      ∧ renderFixedTable 16 enfermeriaRows = (16, enfermeriaRows.take 16)
      ∧ renderFixedTable 22 prescripcionesRows = (22, prescripcionesRows.take 22)
      ∧ (practicasRows.take 22).length = min 22 practicasRows.length
      ∧ (enfermeriaRows.take 16).length = min 16 enfermeriaRows.length := by
  intro p e pr
  exact ⟨renderFixedTable_eq 22 p, renderFixedTable_eq 16 e, renderFixedTable_eq 22 pr,
    by simp [List.length_take], by simp [List.length_take]⟩

/-- Claim C2 (counterexample): a stored record for DNI 30111222 carries
`dischargeTimestamp = 1000`; importing a `.clinic` file for the same DNI
saves the imported record wholesale with its timestamp field deleted, so the
previously stored timestamp is removed by this save — refuting "every
subsequent save persists a record whose dischargeTimestamp equals the
previously stored value". -/
theorem c2_counterexample :
    tsAt storeWithTs "30111222" = some 1000
    ∧ tsAt (importClinicSave storeWithTs importedDoc) "30111222" = none := by decide

/-- Claim C3 (counterexample): a validated generate-PDF action by a nurse
(`Enfermero`) on a record with no dischargeTimestamp never reaches the STAMP
stage and leaves the timestamp unset, because the stamp call is gated to
Médico/Administrador in every branch — refuting "for every logged-in user
role ... reaches the STAMP stage and sets the dischargeTimestamp". -/
theorem c3_counterexample :
    Stage.stamp ∉ (generateAction ProcType.hemodinamia true (some enfUser) false
        store0 "30111222" emptyForms 7777).1
    ∧ tsAt (generateAction ProcType.hemodinamia true (some enfUser) false
        store0 "30111222" emptyForms 7777).2 "30111222" = none := by decide

/-- Claim C4 (counterexample): the fetched record for DNI 30111222 holds
sibling-tab data `cirugias = [("x","1")]`; a full-record save with all four
DOM forms empty persists a record whose `cirugias` (and every other tab key)
is overwritten with the collected form contents — the saved record differs
from the fetched one at keys other than the single active tab, refuting the
only-the-active-tab frame claim. -/
theorem c4_counterexample :
    storeSibling "30111222"
        = some { emptyRecord with cirugias := some [("x", DocVal.vStr "1")] }
    ∧ savedRec (collectAndSaveAllData storeSibling "30111222" emptyForms)
        = some ⟨some [], some [], some [], some [], none⟩ := by decide

/-- Claim C7 (counterexample): a TabDocument whose scalar keys are a strict
subset of the bound fields does not survive the populate-then-collect round
trip — collection always reads every bound field (keeping the pre-populate
value of field `b`) and always emits every table key, so the result gains
entries the document never had, refuting `collect(populate(tab, d)) = d`
for subset-keyed documents. -/
theorem c7_counterexample :
    (∀ p ∈ cxDoc, p.1 ∈ cxSchema.fields.map Field.key)
    ∧ collectForm cxSchema (populateForm cxSchema cxSt cxDoc) ≠ cxDoc := by decide

/-!  Record-store lemmas. -/

theorem upsert_self (s : Store) (dni : String) (r : PatientRecord) :
    upsert s dni r dni = some r := by
  simp [upsert]

theorem upsert_other (s : Store) (dni : String) (r : PatientRecord) (k : String)
    (h : k ≠ dni) : upsert s dni r k = s k := by
  simp [upsert, h]

theorem applyForms_ts (p : PatientRecord) (f : FormsSt) :
    (applyForms p f).dischargeTimestamp = p.dischargeTimestamp := rfl

theorem getD_ts_eq_tsAt (store : Store) (dni : String) :
    ((store dni).getD emptyRecord).dischargeTimestamp = tsAt store dni := by
  unfold tsAt
  cases store dni <;> simp [emptyRecord]

theorem tsAt_upsert_self (s : Store) (dni : String) (r : PatientRecord) :
    tsAt (upsert s dni r) dni = r.dischargeTimestamp := by
  unfold tsAt
  rw [upsert_self]

theorem tsAt_storeAfterSave (store : Store) (dni : String) (forms : FormsSt)
    (h : dni ≠ "") : tsAt (storeAfterSave store dni forms) dni = tsAt store dni := by
  unfold storeAfterSave collectAndSaveAllData
  rw [if_neg h]
  show tsAt (upsert store dni (applyForms ((store dni).getD emptyRecord) forms)) dni = _
  rw [tsAt_upsert_self, applyForms_ts, getD_ts_eq_tsAt]

theorem truthyTs_iff (o : Option Int) :
    truthyTs o = true ↔ ∃ t, o = some t ∧ t ≠ 0 := by
  cases o <;> simp [truthyTs]

theorem tsAt_setDischargeTimestamp_truthy (store : Store) (dni : String) (forms : FormsSt)
    (now t : Int) (h : tsAt store dni = some t) (ht : t ≠ 0) :
    tsAt (setDischargeTimestamp store dni forms now) dni = some t := by
  by_cases hd : dni = ""
  · subst hd
    simpa [setDischargeTimestamp] using h
  · have hfetch : ((store dni).getD emptyRecord).dischargeTimestamp = some t := by
      rw [getD_ts_eq_tsAt, h]
    unfold setDischargeTimestamp collectAndSaveAllData
    rw [if_neg hd, if_neg hd]
    show tsAt
        (if truthyTs (applyForms ((store dni).getD emptyRecord) forms).dischargeTimestamp then _
         else _) dni = some t
    rw [applyForms_ts, hfetch]
    have htr : truthyTs (some t) = true := by simp [truthyTs, ht]
    rw [if_pos htr, tsAt_upsert_self, applyForms_ts, hfetch]

theorem tsAt_setDischargeTimestamp_falsy (store : Store) (dni : String) (forms : FormsSt)
    (now : Int) (h : truthyTs (tsAt store dni) = false) (hd : dni ≠ "") :
    tsAt (setDischargeTimestamp store dni forms now) dni = some now := by
  have hfetch : truthyTs ((store dni).getD emptyRecord).dischargeTimestamp = false := by
    rw [getD_ts_eq_tsAt]; exact h
  unfold setDischargeTimestamp collectAndSaveAllData
  rw [if_neg hd, if_neg hd]
  show tsAt
      (if truthyTs (applyForms ((store dni).getD emptyRecord) forms).dischargeTimestamp then _
       else _) dni = some now
  rw [applyForms_ts, hfetch]
  simp only [Bool.false_eq_true, if_false]
  rw [tsAt_upsert_self]

/-- Claim C2 (amended): a present discharge timestamp is preserved by the
full-record save and by the discharge-stamp operation (whose presence test
is JS truthiness, hence the nonzero hypothesis); the `.clinic` import-save,
however, replaces the record wholesale with the imported data stripped of
`dischargeTimestamp`, so after importing over a DNI the stored timestamp is
absent. -/
theorem c2_timestamp_preservation_amended :
    (∀ (store : Store) (dni : String) (forms : FormsSt), dni ≠ "" →
        tsAt (storeAfterSave store dni forms) dni = tsAt store dni)
    ∧ (∀ (store : Store) (dni : String) (forms : FormsSt) (now t : Int),
        tsAt store dni = some t → t ≠ 0 →
        tsAt (setDischargeTimestamp store dni forms now) dni = some t)
    ∧ (∀ (store : Store) (imported : PatientRecord) (dni : String),
        findImportDni { imported with dischargeTimestamp := none } = some dni →
        tsAt (importClinicSave store imported) dni = none) := by
  refine ⟨tsAt_storeAfterSave, ?_, ?_⟩
  · intro store dni forms now t h ht
    exact tsAt_setDischargeTimestamp_truthy store dni forms now t h ht
  · intro store imported dni h
    unfold importClinicSave
    rw [h, tsAt_upsert_self]

/-- Claim C2 witness: saving and stamping over a record whose timestamp is
already 1000 keep it at 1000. -/
theorem c2_timestamp_preservation_amended_witness :
    tsAt (setDischargeTimestamp storeWithTs "30111222" emptyForms 7777) "30111222"
      = some 1000 :=
  c2_timestamp_preservation_amended.2.1 storeWithTs "30111222" emptyForms 7777 1000
    (by decide) (by decide)

/-- Claim C6: the discharge-stamp operation is idempotent on the stored
timestamp — a second invocation (at any later clock reading, with any form
contents) leaves the stored `dischargeTimestamp` exactly as the first
invocation left it.  The hypothesis `now₁ ≠ 0` reflects that `Date.now()`
is a nonzero epoch-millisecond reading. -/
theorem c6_stamp_idempotent (store : Store) (dni : String) (forms forms' : FormsSt)
    (now₁ now₂ : Int) (h1 : now₁ ≠ 0) :
    tsAt (setDischargeTimestamp (setDischargeTimestamp store dni forms now₁) dni forms' now₂) dni
      = tsAt (setDischargeTimestamp store dni forms now₁) dni := by
  by_cases hd : dni = ""
  · simp [setDischargeTimestamp, hd]
  · cases htr : truthyTs (tsAt store dni) with
    | true =>
      obtain ⟨t, ht, ht0⟩ := (truthyTs_iff (tsAt store dni)).mp htr
      have e1 := tsAt_setDischargeTimestamp_truthy store dni forms now₁ t ht ht0
      have e2 := tsAt_setDischargeTimestamp_truthy _ dni forms' now₂ t e1 ht0
      rw [e1, e2]
    | false =>
      have e1 := tsAt_setDischargeTimestamp_falsy store dni forms now₁ htr hd
      have e2 := tsAt_setDischargeTimestamp_truthy _ dni forms' now₂ now₁ e1 h1
      rw [e1, e2]

/-- Claim C6 witness: stamping an empty record at 5 and again at 9 leaves
the timestamp at 5. -/
theorem c6_stamp_idempotent_witness :
    tsAt (setDischargeTimestamp (setDischargeTimestamp store0 "1" emptyForms 5) "1"
      emptyForms 9) "1" = some 5 :=
  (c6_stamp_idempotent store0 "1" emptyForms emptyForms 5 9 (by decide)).trans (by decide)

/-- Claim C4 (amended): a successful full-record save persists exactly the
fetched record with its four procedure-tab keys overwritten by the current
form contents — the `dischargeTimestamp` key is preserved and records of
other DNIs are untouched, but sibling tabs are overwritten from the DOM
rather than kept at their stored values. -/
theorem c4_save_frame_amended (store : Store) (dni : String) (forms : FormsSt)
    (h : dni ≠ "") :
    savedRec (collectAndSaveAllData store dni forms)
        = some (applyForms ((store dni).getD emptyRecord) forms)
    ∧ tsAt (storeAfterSave store dni forms) dni = tsAt store dni
    ∧ storeAfterSave store dni forms dni = savedRec (collectAndSaveAllData store dni forms)
    ∧ (∀ k, k ≠ dni → storeAfterSave store dni forms k = store k) := by
  refine ⟨?_, tsAt_storeAfterSave store dni forms h, ?_, ?_⟩
  · unfold savedRec collectAndSaveAllData
    rw [if_neg h]
  · unfold storeAfterSave savedRec collectAndSaveAllData
    rw [if_neg h]
    exact upsert_self _ _ _
  · intro k hk
    unfold storeAfterSave collectAndSaveAllData
    rw [if_neg h]
    exact upsert_other _ _ _ _ hk

/-- Claim C4 witness: the frame characterization applied to the
sibling-data store. -/
theorem c4_save_frame_amended_witness :
    savedRec (collectAndSaveAllData storeSibling "30111222" emptyForms)
      = some (applyForms ((storeSibling "30111222").getD emptyRecord) emptyForms) :=
  (c4_save_frame_amended storeSibling "30111222" emptyForms (by decide)).1

theorem tsAt_upsert_applyForms (store : Store) (dni : String) (forms : FormsSt) :
    tsAt (upsert store dni (applyForms ((store dni).getD emptyRecord) forms)) dni
      = tsAt store dni := by
  rw [tsAt_upsert_self, applyForms_ts, getD_ts_eq_tsAt]

/-- Claim C3 (amended): a validated generate-PDF action with a logged-in
user and a nonempty DNI executes
VALIDATE → PERSIST → RENDER → [MERGE] → DELIVER, and the STAMP stage runs
last and only when the user's role is Médico or Administrador; for those
roles a record with no stored timestamp gets `dischargeTimestamp = now`,
while for every other role the stored timestamp is left unchanged (and
STAMP never runs). -/
theorem c3_stages_amended (proc : ProcType) (u : UserProfile) (scanned : Bool)
    (store : Store) (dni : String) (forms : FormsSt) (now : Int) (h : dni ≠ "") :
    ((generateAction proc true (some u) scanned store dni forms now).1
        = [Stage.validate, Stage.persist, Stage.render]
          ++ (if proc = ProcType.cirugiaAnestesia ∧ scanned = true
              then [Stage.merge] else [])
          ++ [Stage.deliver]
          ++ (if isDoctorOrAdmin u.especialidad then [Stage.stamp] else []))
    ∧ (isDoctorOrAdmin u.especialidad = true → tsAt store dni = none →
        tsAt (generateAction proc true (some u) scanned store dni forms now).2 dni
          = some now)
    ∧ (isDoctorOrAdmin u.especialidad = false →
        tsAt (generateAction proc true (some u) scanned store dni forms now).2 dni
          = tsAt store dni) := by
  unfold generateAction collectAndSaveAllData
  rw [if_neg h]
  simp only [Bool.true_eq_false, if_false]
  cases hdoc : isDoctorOrAdmin u.especialidad with
  | true =>
    simp only [if_true, if_pos]
    refine ⟨by simp, ?_, by simp⟩
    intro _ hnone
    have h1 : tsAt (upsert store dni (applyForms ((store dni).getD emptyRecord) forms)) dni
        = tsAt store dni := tsAt_upsert_applyForms store dni forms
    apply tsAt_setDischargeTimestamp_falsy _ dni forms now _ h
    rw [h1, hnone]
    rfl
  | false =>
    simp only [Bool.false_eq_true, if_false]
    exact ⟨by simp, by simp, fun _ => tsAt_upsert_applyForms store dni forms⟩

/-- Claim C3 witness: a physician generating on a fresh record stamps it. -/
theorem c3_stages_amended_witness :
    tsAt (generateAction ProcType.cirugias true (some docUser) false store0 "1"
      emptyForms 42).2 "1" = some 42 :=
  (c3_stages_amended ProcType.cirugias docUser false store0 "1" emptyForms 42
    (by decide)).2.1 (by decide) (by decide)

/-!  Merge-step lemmas. -/

theorem take_len_append {α : Type} : ∀ (xs ys : List α), (xs ++ ys).take xs.length = xs
  | [], _ => rfl
  | x :: xs, ys => by simp [take_len_append xs ys]

theorem drop_len_append {α : Type} : ∀ (xs ys : List α), (xs ++ ys).drop xs.length = ys
  | [], _ => rfl
  | x :: xs, ys => by simp [drop_len_append xs ys]

theorem length_take_of_le {α : Type} (l : List α) (n : Nat) (h : n ≤ l.length) :
    (l.take n).length = n := by
  simp [List.length_take]
  omega

theorem insertAt_decomp {α : Type} (n : Nat) (p : α) (base : List α) :
    insertAt n p base = (base.take n ++ [p]) ++ base.drop n := by
  simp [insertAt]

theorem insertPagesFrom_eq {α : Type} :
    ∀ (ext : List α) (n : Nat) (base : List α), n ≤ base.length →
      insertPagesFrom n ext base = base.take n ++ ext ++ base.drop n := by
  intro ext
  induction ext with
  | nil =>
    intro n base _
    simp [insertPagesFrom]
  | cons p ps ih =>
    intro n base h
    have h1 : (base.take n).length = n := length_take_of_le base n h
    have hlen : (insertAt n p base).length = base.length + 1 := by
      rw [insertAt_decomp]
      simp
      omega
    have h3 : (base.take n ++ [p]).length = n + 1 := by simp [h1]
    have htk : (insertAt n p base).take (n + 1) = base.take n ++ [p] := by
      rw [insertAt_decomp, ← h3, take_len_append]
    have hdr : (insertAt n p base).drop (n + 1) = base.drop n := by
      rw [insertAt_decomp, ← h3, drop_len_append]
    show insertPagesFrom (n + 1) ps (insertAt n p base) = _
    rw [ih (n + 1) _ (by omega), htk, hdr]
    simp

/-- Claim C9: on the surgery+anesthesia branch, an external byte stream that
is not a valid PDF leaves the base document's pages unchanged and raises the
user-facing merge warning, while delivery still occurs (the function is
total); a valid external document has all its pages inserted contiguously at
zero-based index 6 — immediately after the anesthesia-protocol cover, which
is page index 5 of the 12-page base render — preserving page order. -/
theorem c9_merge_degrade_and_insert (α : Type) (base ext : List α) :
    caMergeDeliver base (some none) = (base, true)
    ∧ (6 ≤ base.length →
        caMergeDeliver base (some (some ext)) = (base.take 6 ++ ext ++ base.drop 6, false))
    ∧ caMergeDeliver base none = (base, false)
    ∧ caBasePages.get? 5 = some PageKind.protocoloAnestesico
    ∧ caBasePages.length = 12 := by
  refine ⟨rfl, fun h => ?_, rfl, rfl, rfl⟩
  show (insertPagesFrom 6 ext base, false) = _
  rw [insertPagesFrom_eq ext 6 base h]

/-- Claim C9 witness: merging two external pages into a 12-page base inserts
them between indices 5 and 6. -/
theorem c9_merge_degrade_and_insert_witness :
    caMergeDeliver [0, 1, 2, 3, 4, 5, 6, 7, 8, 9, 10, 11] (some (some [100, 101]))
      = ([0, 1, 2, 3, 4, 5, 100, 101, 6, 7, 8, 9, 10, 11], false) :=
  ((c9_merge_degrade_and_insert Nat [0, 1, 2, 3, 4, 5, 6, 7, 8, 9, 10, 11]
    [100, 101]).2.1 (by decide)).trans (by decide)

/-!  Role-access lemmas. -/

theorem foldl_enable (perms : List String) (cs : List Control) :
    perms.foldl
        (fun cs role =>
          cs.map (fun c => if c.sectionTag = some role then { c with disabled := false } else c))
        cs
      = cs.map (fun c =>
          if (match c.sectionTag with
              | some s => perms.contains s
              | none => false)
          then { c with disabled := false } else c) := by
  induction perms generalizing cs with
  | nil =>
    have hid : ∀ c : Control,
        (if (match c.sectionTag with
             | some s => ([] : List String).contains s
             | none => false)
         then { c with disabled := false } else c) = c := by
      intro c
      cases c.sectionTag <;> simp
    rw [List.foldl_nil, List.map_congr_left (fun c _ => hid c)]
    simp
  | cons r rs ih =>
    rw [List.foldl_cons, ih, List.map_map]
    apply List.map_congr_left
    intro c _
    cases hs : c.sectionTag with
    | none => simp [Function.comp, hs]
    | some s =>
      by_cases hr : s = r
      · subst hr
        by_cases hm : s ∈ rs <;> simp [Function.comp, hs, hm]
      · by_cases hm : s ∈ rs <;> simp [Function.comp, hs, hr, hm]

theorem applyRole_admin_eq (u : UserProfile) (h : u.especialidad = "Administrador")
    (ctrls : List Control) :
    applyRoleBasedAccess (some u) ctrls = ctrls.map (fun c => { c with disabled := false }) := by
  simp [applyRoleBasedAccess, h]

theorem applyRole_nonadmin_eq (u : UserProfile) (h : u.especialidad ≠ "Administrador")
    (ctrls : List Control) :
    applyRoleBasedAccess (some u) ctrls
      = ctrls.map (fun c =>
          { c with disabled := !(match c.sectionTag with
              | some s => (rolePermissions u.especialidad).contains s
              | none => false) }) := by
  show (if u.especialidad = "Administrador" then _ else _) = _
  rw [if_neg h, foldl_enable, List.map_map]
  apply List.map_congr_left
  intro c _
  cases hs : c.sectionTag with
  | none => simp [Function.comp, hs]
  | some s =>
    by_cases hm : s ∈ rolePermissions u.especialidad <;>
      simp [Function.comp, hs, hm]

/-- Claim C10: the role access policy realized by `applyRoleBasedAccess` is
fail-closed with an administrator wildcard — `Administrador` enables every
control; any other role leaves a control enabled exactly when its section
tag is in the static permission table's entry for that role (controls
outside any tagged section stay disabled); and a role absent from the table
gets the empty permission list, so every control ends up disabled, with no
error.  `isEditable` is the spec's contract, shown here to describe the
code's behavior exactly. -/
theorem c10_role_access_fail_closed :
    (∀ (u : UserProfile) (ctrls : List Control), u.especialidad = "Administrador" →
        applyRoleBasedAccess (some u) ctrls = ctrls.map (fun c => { c with disabled := false }))
    ∧ (∀ (u : UserProfile) (ctrls : List Control), u.especialidad ≠ "Administrador" →
        applyRoleBasedAccess (some u) ctrls
          = ctrls.map (fun c =>
              { c with disabled := !(match c.sectionTag with
                  | some s => isEditable u.especialidad s
                  | none => false) }))
    ∧ (∀ s, isEditable "Administrador" s = true)
    ∧ (∀ role s, role ≠ "Administrador" → (isEditable role s = true ↔ s ∈ rolePermissions role))
    ∧ (∀ role s, role ≠ "Administrador" → rolePermissions role = [] →
        isEditable role s = false) := by
  refine ⟨fun u ctrls h => applyRole_admin_eq u h ctrls, ?_, fun s => rfl, ?_, ?_⟩
  · intro u ctrls h
    rw [applyRole_nonadmin_eq u h ctrls]
    apply List.map_congr_left
    intro c _
    cases hs : c.sectionTag <;> simp [hs, isEditable, h]
  · intro role s h
    rw [show isEditable role s = (rolePermissions role).contains s from by
      unfold isEditable; rw [if_neg h]]
    exact List.elem_iff
  · intro role s h hperm
    unfold isEditable
    rw [if_neg h, hperm]
    rfl

/-- Claim C10 witness: a role absent from the permission table can edit no
section. -/
theorem c10_role_access_fail_closed_witness :
    isEditable "Visitante" "medico" = false :=
  c10_role_access_fail_closed.2.2.2.2 "Visitante" "medico" (by decide) (by decide)

/-!  Form-mapper round-trip lemmas. -/

theorem scalarEntries_cons (f : Field) (fs : List Field) (v : ScalarVal)
    (vs : List ScalarVal) :
    scalarEntries (f :: fs) (v :: vs) = (f.key, collectScalar v) :: scalarEntries fs vs := by
  simp [scalarEntries]

theorem tableEntries_cons (t : Table) (ts : List Table) (rs : List (List String))
    (rss : List (List (List String))) :
    tableEntries (t :: ts) (rs :: rss)
      = (t.name, DocVal.vRows (rs.map (collectRow t.cols))) :: tableEntries ts rss := by
  simp [tableEntries]

theorem populateScalars_cons (f : Field) (fs : List Field) (v : ScalarVal)
    (vs : List ScalarVal) (d : TabDoc) :
    populateScalars (f :: fs) (v :: vs) d
      = setScalar f.kind v (alookup f.key d) :: populateScalars fs vs d := by
  simp [populateScalars]

theorem populateTables_cons (t : Table) (ts : List Table) (rs : List (List String))
    (rss : List (List (List String))) (d : TabDoc) :
    populateTables (t :: ts) (rs :: rss) d
      = (match alookup t.name d with
         | some (DocVal.vRows l) => l.map (materializeRow t.cols)
         | _ => rs) :: populateTables ts rss d := by
  simp [populateTables]

theorem scalarEntries_key_mem (fields : List Field) (svals : List ScalarVal)
    (p : String × DocVal) (hp : p ∈ scalarEntries fields svals) :
    p.1 ∈ fields.map Field.key := by
  unfold scalarEntries at hp
  obtain ⟨fv, hmem, hEq⟩ := List.mem_map.mp hp
  rw [← hEq]
  exact List.mem_map_of_mem _ (List.of_mem_zip hmem).1

theorem setScalar_collect (kind : FieldKind) (old v' : ScalarVal)
    (h : kindOk kind v' = true) :
    setScalar kind old (some (collectScalar v')) = v' := by
  cases kind <;> cases v' <;>
    simp [kindOk] at h ⊢ <;>
    simp [setScalar, collectScalar, truthyDocVal, docValToString]

theorem populateScalars_roundtrip :
    ∀ (fields : List Field) (svals svals' : List ScalarVal) (pre rest : TabDoc),
      (∀ p ∈ pre, p.1 ∉ fields.map Field.key) →
      (fields.map Field.key).Nodup →
      kindsOk fields svals = true →
      kindsOk fields svals' = true →
      populateScalars fields svals (pre ++ scalarEntries fields svals' ++ rest) = svals' := by
  intro fields
  induction fields with
  | nil =>
    intro svals svals' pre rest _ _ _ h3
    cases svals' with
    | nil => rfl
    | cons v' vs' => simp [kindsOk] at h3
  | cons f fs ih =>
    intro svals svals' pre rest hpre hnd h2 h3
    cases svals with
    | nil => simp [kindsOk] at h2
    | cons v vs =>
      cases svals' with
      | nil => simp [kindsOk] at h3
      | cons v' vs' =>
        simp only [kindsOk, Bool.and_eq_true] at h2 h3
        have hkeys : ∀ p ∈ pre, p.1 ≠ f.key :=
          fun p hp hEq => hpre p hp (by rw [hEq]; simp)
        have hassoc : pre ++ scalarEntries (f :: fs) (v' :: vs') ++ rest
            = pre ++ (((f.key, collectScalar v') :: scalarEntries fs vs') ++ rest) := by
          rw [scalarEntries_cons, List.append_assoc]
        have hhead : alookup f.key (pre ++ scalarEntries (f :: fs) (v' :: vs') ++ rest)
            = some (collectScalar v') := by
          rw [hassoc, alookup_append_of_not_mem _ _ _ hkeys]
          simp [alookup]
        have hndc : (f.key :: fs.map Field.key).Nodup := by simpa using hnd
        have hndf := List.nodup_cons.mp hndc
        have hd2 : pre ++ scalarEntries (f :: fs) (v' :: vs') ++ rest
            = (pre ++ [(f.key, collectScalar v')]) ++ scalarEntries fs vs' ++ rest := by
          rw [scalarEntries_cons]
          simp
        have htail : populateScalars fs vs
            (pre ++ scalarEntries (f :: fs) (v' :: vs') ++ rest) = vs' := by
          rw [hd2]
          apply ih vs vs' (pre ++ [(f.key, collectScalar v')]) rest ?_ hndf.2 h2.2 h3.2
          intro p hp
          rcases List.mem_append.mp hp with hL | hR
          · exact fun hmem => hpre p hL (List.mem_cons_of_mem _ hmem)
          · have hpk : p.1 = f.key := by
              have : p = (f.key, collectScalar v') := by simpa using hR
              rw [this]
            rw [hpk]
            exact hndf.1
        rw [populateScalars_cons, hhead, setScalar_collect f.kind v v' h3.1, htail]

theorem materializeRow_collectRow :
    ∀ (cols : List String) (r : List String), cols.Nodup → r.length = cols.length →
      materializeRow cols (collectRow cols r) = r := by
  intro cols
  induction cols with
  | nil =>
    intro r _ hlen
    cases r with
    | nil => rfl
    | cons v rv => simp at hlen
  | cons c cs ih =>
    intro r hnd hlen
    cases r with
    | nil => simp at hlen
    | cons v rv =>
      obtain ⟨hcn, hnd'⟩ := List.nodup_cons.mp hnd
      have hcr : collectRow (c :: cs) (v :: rv) = (c, v) :: collectRow cs rv := by
        simp [collectRow]
      have hhead : (alookup c (collectRow (c :: cs) (v :: rv))).getD "" = v := by
        rw [hcr]
        simp [alookup]
      have htail : ∀ c' ∈ cs,
          (alookup c' (collectRow (c :: cs) (v :: rv))).getD ""
            = (alookup c' (collectRow cs rv)).getD "" := by
        intro c' hc'
        have hne : c ≠ c' := fun hEq => hcn (hEq ▸ hc')
        rw [hcr, alookup_cons_ne c' c v _ hne]
      show (c :: cs).map (fun c' => (alookup c' (collectRow (c :: cs) (v :: rv))).getD "")
          = v :: rv
      rw [List.map_cons, hhead, List.map_congr_left htail]
      have : cs.map (fun c' => (alookup c' (collectRow cs rv)).getD "")
          = materializeRow cs (collectRow cs rv) := rfl
      rw [this, ih rv hnd' (by simpa using hlen)]

theorem tableRowsOk_lengths (t : Table) (rss : List (List String))
    (h : tableRowsOk t rss = true) : ∀ r ∈ rss, r.length = t.cols.length := by
  intro r hr
  have h2 := (List.all_eq_true.mp h) r hr
  simpa using h2

theorem populateTables_roundtrip :
    ∀ (tables : List Table) (trows trows' : List (List (List String))) (pre : TabDoc),
      (∀ p ∈ pre, p.1 ∉ tables.map Table.name) →
      (tables.map Table.name).Nodup →
      (∀ t ∈ tables, t.cols.Nodup) →
      tablesOk tables trows = true →
      tablesOk tables trows' = true →
      populateTables tables trows (pre ++ tableEntries tables trows') = trows' := by
  intro tables
  induction tables with
  | nil =>
    intro trows trows' pre _ _ _ _ h3
    cases trows' with
    | nil => rfl
    | cons => simp [tablesOk] at h3
  | cons t ts ih =>
    intro trows trows' pre hpre hnd hcols h2 h3
    cases trows with
    | nil => simp [tablesOk] at h2
    | cons rs rss =>
      cases trows' with
      | nil => simp [tablesOk] at h3
      | cons rs' rss' =>
        simp only [tablesOk, Bool.and_eq_true] at h2 h3
        have hkeys : ∀ p ∈ pre, p.1 ≠ t.name :=
          fun p hp hEq => hpre p hp (by rw [hEq]; simp)
        have hhead : alookup t.name (pre ++ tableEntries (t :: ts) (rs' :: rss'))
            = some (DocVal.vRows (rs'.map (collectRow t.cols))) := by
          rw [tableEntries_cons, alookup_append_of_not_mem _ _ _ hkeys]
          simp [alookup]
        have hndc : (t.name :: ts.map Table.name).Nodup := by simpa using hnd
        have hndt := List.nodup_cons.mp hndc
        have hvals : (rs'.map (collectRow t.cols)).map (materializeRow t.cols) = rs' := by
          rw [List.map_map]
          have hpt : ∀ r ∈ rs',
              (materializeRow t.cols ∘ collectRow t.cols) r = r := by
            intro r hr
            exact materializeRow_collectRow t.cols r (hcols t (by simp))
              (tableRowsOk_lengths t rs' h3.1 r hr)
          rw [List.map_congr_left hpt]
          simp
        have hd2 : pre ++ tableEntries (t :: ts) (rs' :: rss')
            = (pre ++ [(t.name, DocVal.vRows (rs'.map (collectRow t.cols)))])
              ++ tableEntries ts rss' := by
          rw [tableEntries_cons]
          simp
        have htail : populateTables ts rss (pre ++ tableEntries (t :: ts) (rs' :: rss'))
            = rss' := by
          rw [hd2]
          apply ih rss rss' _ ?_ hndt.2 (fun t' ht' => hcols t' (List.mem_cons_of_mem _ ht'))
            h2.2 h3.2
          intro p hp
          rcases List.mem_append.mp hp with hL | hR
          · exact fun hmem => hpre p hL (List.mem_cons_of_mem _ hmem)
          · have hpk : p.1 = t.name := by
              have : p = (t.name, DocVal.vRows (rs'.map (collectRow t.cols))) := by
                simpa using hR
              rw [this]
            rw [hpk]
            exact hndt.1
        rw [populateTables_cons, hhead]
        show (rs'.map (collectRow t.cols)).map (materializeRow t.cols)
            :: populateTables ts rss (pre ++ tableEntries (t :: ts) (rs' :: rss'))
          = rs' :: rss'
        rw [hvals, htail]

/-- Claim C7 (amended): the populate-then-collect round trip is the identity
on complete well-typed TabDocuments — documents carrying exactly one entry
of the right shape per bound scalar field (checkbox ↦ boolean, other ↦
string) and exactly one row array per table whose rows assign every column.
Every such document is `collectForm sch st'` for a unique DOM state `st'`,
and populating any well-formed prior state with it and collecting again
reproduces it: all scalar values, all row counts, row order and per-column
values are preserved.  (The counterexample shows this fails for documents
whose keys are a strict subset of the bound fields.) -/
theorem c7_roundtrip_amended (sch : Schema) (st st' : FormSt)
    (hsch : wfSchema sch) (hst : wfState sch st) (hst' : wfState sch st') :
    collectForm sch (populateForm sch st (collectForm sch st')) = collectForm sch st' := by
  obtain ⟨hnd, hcols⟩ := hsch
  obtain ⟨hk, ht⟩ := hst
  obtain ⟨hk', ht'⟩ := hst'
  rw [List.nodup_append] at hnd
  obtain ⟨hndf, hndt, hdisj⟩ := hnd
  have hs : populateScalars sch.fields st.scalars (collectForm sch st') = st'.scalars := by
    have h := populateScalars_roundtrip sch.fields st.scalars st'.scalars []
      (tableEntries sch.tables st'.rows) (by simp) hndf hk hk'
    simpa [collectForm] using h
  have hpre : ∀ p ∈ scalarEntries sch.fields st'.scalars,
      p.1 ∉ sch.tables.map Table.name := by
    intro p hp hmem
    exact hdisj (scalarEntries_key_mem sch.fields st'.scalars p hp) hmem
  have htb : populateTables sch.tables st.rows (collectForm sch st') = st'.rows :=
    populateTables_roundtrip sch.tables st.rows st'.rows
      (scalarEntries sch.fields st'.scalars) hpre hndt hcols ht ht'
  show collectForm sch
      { scalars := populateScalars sch.fields st.scalars (collectForm sch st')
        rows := populateTables sch.tables st.rows (collectForm sch st') }
    = collectForm sch st'
  rw [hs, htb]

/-- Claim C7 witness: the round trip on a concrete complete document. -/
theorem c7_roundtrip_amended_witness :
    collectForm wSchema (populateForm wSchema wSt (collectForm wSchema wSt'))
      = collectForm wSchema wSt' :=
  c7_roundtrip_amended wSchema wSt wSt' ⟨by decide, by decide⟩
    ⟨by decide, by decide⟩ ⟨by decide, by decide⟩

end ClinicaDelSol
